import Mathlib

/-!
Verification development for a small Binance-futures trading client
consisting of two Python modules: `bot.py` (a `BasicBot` class that signs
parameter mappings with HMAC-SHA256 and POSTs them) and `cli.py` (an
argparse wrapper that validates an order intent, places the order and
summarizes the JSON response).

The embedding below translates the relevant source functions into
executable Lean definitions: Python `dict`s whose insertion order matters
become association lists, floats become rationals (the code only converts
and serializes them, never does float arithmetic), byte strings become
`List Nat` with values below 256, and the network is an explicit oracle
argument.
-/

namespace TradingBot

/-! ## Bytes and UTF-8 (models Python `str.encode("utf-8")`) -/

/-- UTF-8 encoding of one scalar value, as byte values. -/
def utf8Bytes (c : Char) : List Nat :=
  let n := c.toNat
  if n < 128 then [n]
  else if n < 2048 then [192 + n / 64, 128 + n % 64]
  else if n < 65536 then [224 + n / 4096, 128 + n / 64 % 64, 128 + n % 64]
  else [240 + n / 262144, 128 + n / 4096 % 64, 128 + n / 64 % 64, 128 + n % 64]

/-- UTF-8 byte sequence of a string, models `s.encode("utf-8")`. -/
def strBytes (s : String) : List Nat :=
  s.data.flatMap utf8Bytes

/-! ## SHA-256 (models `hashlib.sha256`), over byte lists, words as
naturals reduced mod 2^32. -/

/-- Truncate to a 32-bit word. -/
def w32 (n : Nat) : Nat := n % 4294967296

/-- Rotate a 32-bit word right by `k` bits. -/
def rotR32 (x k : Nat) : Nat := x / 2 ^ k + x % 2 ^ k * 2 ^ (32 - k)

/-- Shift a word right by `k` bits. -/
def shr (x k : Nat) : Nat := x / 2 ^ k

/-- Bitwise choose. -/
def chW (x y z : Nat) : Nat := Nat.xor (Nat.land x y) (Nat.land (Nat.xor x 4294967295) z)

/-- Bitwise majority. -/
def majW (x y z : Nat) : Nat := Nat.xor (Nat.xor (Nat.land x y) (Nat.land x z)) (Nat.land y z)

/-- Big sigma 0. -/
def sum320 (x : Nat) : Nat := Nat.xor (Nat.xor (rotR32 x 2) (rotR32 x 13)) (rotR32 x 22)

/-- Big sigma 1. -/
def sum321 (x : Nat) : Nat := Nat.xor (Nat.xor (rotR32 x 6) (rotR32 x 11)) (rotR32 x 25)

/-- Small sigma 0. -/
def sgm320 (x : Nat) : Nat := Nat.xor (Nat.xor (rotR32 x 7) (rotR32 x 18)) (shr x 3)

/-- Small sigma 1. -/
def sgm321 (x : Nat) : Nat := Nat.xor (Nat.xor (rotR32 x 17) (rotR32 x 19)) (shr x 10)

/-- The 64 SHA-256 round constants, in decimal. -/
def K256 : List Nat :=
  [1116352408, 1899447441, 3049323471, 3921009573, 961987163,
   1508970993, 2453635748, 2870763221, 3624381080, 310598401,
   607225278, 1426881987, 1925078388, 2162078206, 2614888103,
   3248222580, 3835390401, 4022224774, 264347078, 604807628,
   770255983, 1249150122, 1555081692, 1996064986, 2554220882,
   2821834349, 2952996808, 3210313671, 3336571891, 3584528711,
   113926993, 338241895, 666307205, 773529912, 1294757372,
   1396182291, 1695183700, 1986661051, 2177026350, 2456956037,
   2730485921, 2820302411, 3259730800, 3345764771, 3516065817,
   3600352804, 4094571909, 275423344, 430227734, 506948616,
   659060556, 883997877, 958139571, 1322822218, 1537002063,
   1747873779, 1955562222, 2024104815, 2227730452, 2361852424,
   2428436474, 2756734187, 3204031479, 3329325298]

/-- The eight working variables of the compression function. -/
structure H8 where
  a : Nat
  b : Nat
  c : Nat
  d : Nat
  e : Nat
  f : Nat
  g : Nat
  h : Nat

/-- Initial SHA-256 hash state. -/
def initH : H8 :=
  ⟨1779033703, 3144134277, 1013904242, 2773480762,
   1359893119, 2600822924, 528734635, 1541459225⟩

/-- Next message-schedule word from a sliding window of 16 words
(window holds W[t] .. W[t+15]; result is W[t+16]). -/
def nextW (w : List Nat) : Nat :=
  match w with
  | w0 :: w1 :: _ :: _ :: _ :: _ :: _ :: _ :: _ :: w9 :: _ :: _ :: _ :: _ :: w14 :: _ :: _ =>
      w32 (sgm321 w14 + w9 + sgm320 w1 + w0)
  | _ => 0

/-- One compression round. -/
def round (st : H8) (k w : Nat) : H8 :=
  let t1 := w32 (st.h + sum321 st.e + chW st.e st.f st.g + k + w)
  let t2 := w32 (sum320 st.a + majW st.a st.b st.c)
  ⟨w32 (t1 + t2), st.a, st.b, st.c, w32 (st.d + t1), st.e, st.f, st.g⟩

/-- Run the 64 rounds, one per constant, sliding the schedule window. -/
def rounds (st : H8) (window : List Nat) : List Nat → H8
  | [] => st
  | k :: ks => rounds (round st k (window.headD 0)) (window.tail ++ [nextW window]) ks

/-- Group bytes into big-endian 32-bit words. -/
def bytesToWords : List Nat → List Nat
  | b0 :: b1 :: b2 :: b3 :: rest => (((b0 * 256 + b1) * 256 + b2) * 256 + b3) :: bytesToWords rest
  | _ => []

/-- Compress one 64-byte block into the running state. -/
def compress (st : H8) (block : List Nat) : H8 :=
  let st1 := rounds st (bytesToWords block) K256
  ⟨w32 (st.a + st1.a), w32 (st.b + st1.b), w32 (st.c + st1.c), w32 (st.d + st1.d),
   w32 (st.e + st1.e), w32 (st.f + st1.f), w32 (st.g + st1.g), w32 (st.h + st1.h)⟩

/-- The eight-byte big-endian encoding of the message bit length. -/
def lenBytes (l : Nat) : List Nat :=
  [l * 8 / 2 ^ 56 % 256, l * 8 / 2 ^ 48 % 256, l * 8 / 2 ^ 40 % 256, l * 8 / 2 ^ 32 % 256,
   l * 8 / 2 ^ 24 % 256, l * 8 / 2 ^ 16 % 256, l * 8 / 2 ^ 8 % 256, l * 8 % 256]

/-- SHA-256 padding: append 0x80, zero bytes to 56 mod 64, then the bit length. -/
def shaPad (msg : List Nat) : List Nat :=
  msg ++ [128] ++ List.replicate ((64 - (msg.length + 9) % 64) % 64) 0 ++ lenBytes msg.length

/-- Fold the compression function over successive 64-byte blocks. -/
def sha256Loop (st : H8) (l : List Nat) : H8 :=
  match l with
  | [] => st
  | x :: xs => sha256Loop (compress st ((x :: xs).take 64)) ((x :: xs).drop 64)
  termination_by l.length
  decreasing_by simp; omega

/-- Big-endian bytes of one 32-bit word. -/
def wordBytes (w : Nat) : List Nat :=
  [w / 2 ^ 24 % 256, w / 2 ^ 16 % 256, w / 2 ^ 8 % 256, w % 256]

/-- Serialize the final state as 32 digest bytes. -/
def hashBytes (st : H8) : List Nat :=
  [st.a, st.b, st.c, st.d, st.e, st.f, st.g, st.h].flatMap wordBytes

/-- SHA-256 of a byte list, as 32 digest bytes. -/
def sha256 (msg : List Nat) : List Nat :=
  hashBytes (sha256Loop initH (shaPad msg))

/-! ## HMAC-SHA256 (models `hmac.new(key, msg, hashlib.sha256)`). -/

/-- HMAC-SHA256 digest bytes of `msg` under `key`. -/
def hmacSha256 (key msg : List Nat) : List Nat :=
  let k1 := if 64 < key.length then sha256 key else key
  let k0 := k1 ++ List.replicate (64 - k1.length) 0
  let ipad := k0.map (fun b => Nat.xor b 54)
  let opad := k0.map (fun b => Nat.xor b 92)
  sha256 (opad ++ sha256 (ipad ++ msg))

/-- Lowercase hexadecimal digit character for a nibble. -/
def hexChar (n : Nat) : Char :=
  if n < 10 then Char.ofNat (48 + n) else Char.ofNat (87 + n)

/-- Lowercase hexadecimal rendering of a byte list, models `.hexdigest()`. -/
def hexOfBytes (l : List Nat) : String :=
  String.mk (l.flatMap (fun b => [hexChar (b / 16 % 16), hexChar (b % 16)]))

/-! ## Parameter mappings

A Python `dict` preserves insertion order; assignment to an existing key
updates it in place, assignment to a fresh key appends. We model the
parameter dictionaries as ordered association lists and dict assignment
as `setItem`. Values are strings, ints or floats; the code only ever
converts floats (`float(x)`) and serializes them, so a rational carries
their value exactly. -/

/-- A parameter value: Python str, int, or float (carried as a rational). -/
inductive PValue where
  | s (v : String)
  | i (v : Int)
  | f (v : Rat)
  deriving DecidableEq, Repr

/-- An ordered parameter mapping, modelling a Python dict. -/
abbrev Params : Type := List (String × PValue)

/-- First value bound to `k`, modelling dict lookup. -/
def lookupP : Params → String → Option PValue
  | [], _ => none
  | (k0, v0) :: t, k => if k0 = k then some v0 else lookupP t k

/-- Dict assignment `d[k] = v`: update in place if present, else append. -/
def setItem : Params → String → PValue → Params
  | [], k, v => [(k, v)]
  | (k0, v0) :: t, k, v => if k0 = k then (k0, v) :: t else (k0, v0) :: setItem t k v

/-- Decimal digit character. -/
def digitChar (n : Nat) : Char := Char.ofNat (48 + n % 10)

/-- Decimal expansion digits of a proper fraction `num/den`, up to `fuel`
digits, stopping when the remainder is zero. -/
def fracDigits (fuel num den : Nat) : List Char :=
  match fuel, num with
  | 0, _ => []
  | _, 0 => []
  | fuel1 + 1, _ => digitChar (num * 10 / den) :: fracDigits fuel1 (num * 10 % den) den

/-- Decimal rendering of a float value, models `str(x)` for a Python float
on the decimal values arising here (e.g. `61000.0`, `0.01`). No claim in
this development depends on the exact digits of this rendering. -/
def floatRepr (q : Rat) : String :=
  let sgn := if q < 0 then "-" else ""
  let n := q.num.natAbs
  let d := q.den
  let frac := fracDigits 17 (n % d) d
  sgn ++ toString (n / d) ++ "." ++ (if frac.isEmpty then "0" else String.mk frac)

/-- Python `str()` of a parameter value, as applied by `urlencode`. -/
def pyStr : PValue → String
  | .s v => v
  | .i v => toString v
  | .f v => floatRepr v

/-- Bytes left unescaped by `urllib.parse.quote_plus` with no extra safe
characters: ASCII letters, digits, and `_ . - ~`. -/
def safeByte (b : Nat) : Bool :=
  (65 ≤ b && b ≤ 90) || (97 ≤ b && b ≤ 122) || (48 ≤ b && b ≤ 57) ||
    b == 45 || b == 46 || b == 95 || b == 126

/-- Uppercase hexadecimal digit character, as used in percent-escapes. -/
def hexCharUpper (n : Nat) : Char :=
  if n < 10 then Char.ofNat (48 + n) else Char.ofNat (55 + n)

/-- `quote_plus` on a single byte: safe bytes pass through, space becomes
`+`, everything else is percent-escaped in uppercase hex. -/
def quoteByte (b : Nat) : List Char :=
  if safeByte b then [Char.ofNat b]
  else if b == 32 then ['+']
  else ['%', hexCharUpper (b / 16 % 16), hexCharUpper (b % 16)]

/-- Models `urllib.parse.quote_plus` over the UTF-8 bytes of a string. -/
def quotePlus (s : String) : String :=
  String.mk ((strBytes s).flatMap quoteByte)

/-- One `key=value` component of a query string. -/
def encPair (kv : String × PValue) : String :=
  quotePlus kv.1 ++ "=" ++ quotePlus (pyStr kv.2)

/-- Models `urllib.parse.urlencode(params, doseq=True)` on a mapping of
scalar values: `key=value` components joined with `&`. `requests` uses the
same serialization for the `params=` argument of `session.post`, so this
is both the signed string and the transmitted query string. -/
def urlencode : Params → String
  | [] => ""
  | [kv] => encPair kv
  | kv :: kv1 :: t => encPair kv ++ "&" ++ urlencode (kv1 :: t)

/-! ## The bot (`bot.py`) -/

/-- Testnet base URL constant from `bot.py`. -/
def BASE_URL : String := "https://testnet.binancefuture.com"

/-- Strip all trailing `/` characters, models `str.rstrip("/")`. -/
def rstripSlash (s : String) : String :=
  String.mk (s.data.reverse.dropWhile (fun c => c = '/')).reverse

/-- The `BasicBot` state set up by `__init__`: the secret is kept as its
UTF-8 bytes (`api_secret.encode("utf-8")`). -/
structure BasicBot where
  apiKey : String
  apiSecret : List Nat
  baseUrl : String
  recvWindow : Nat

/-- Constructor body of `BasicBot.__init__` (the empty-credential
`ValueError` is checked by the caller in `cli.py` before construction). -/
def mkBot (api_key api_secret : String) (base_url : String := BASE_URL)
    (recv_window : Nat := 5000) : BasicBot :=
  ⟨api_key, strBytes api_secret, rstripSlash base_url, recv_window⟩

/-- `BasicBot._sign`: hex HMAC-SHA256 of the urlencoded params under the
secret key. -/
def sign (apiSecret : List Nat) (params : Params) : String :=
  hexOfBytes (hmacSha256 apiSecret (strBytes (urlencode params)))

/-- An outbound HTTP request as the bot assembles it: URL, the headers
installed on the session, and the final parameter mapping serialized into
the query string. -/
structure Request where
  url : String
  headers : List (String × String)
  params : Params
  deriving DecidableEq

/-- The query string `requests` transmits for a request: the same
`urlencode` serialization used for signing. -/
def transmittedQuery (r : Request) : String := urlencode r.params

/-- The parameter mapping after `_post` adds `timestamp` and `recvWindow`
(the payload `_sign` is called on). -/
def signedParams (bot : BasicBot) (now : Int) (params : Params) : Params :=
  setItem (setItem params "timestamp" (.i now)) "recvWindow" (.i bot.recvWindow)

/-- `BasicBot._post`: mutate `params` with timestamp, recvWindow and
signature, then issue the POST. Returns the caller-visible mutated mapping
together with the request; the network outcome itself is supplied by the
caller's oracle and does not affect the mutation, which happens first. -/
def post (bot : BasicBot) (now : Int) (path : String) (params : Params) :
    Params × Request :=
  let p2 := signedParams bot now params
  let p3 := setItem p2 "signature" (.s (sign bot.apiSecret p2))
  (p3, ⟨bot.baseUrl ++ path, [("X-MBX-APIKEY", bot.apiKey)], p3⟩)

/-- Parameter mapping built by `place_market_order` before signing. -/
def marketOrderParams (symbol side : String) (quantity : Rat)
    (reduce_only : Bool) : Params :=
  [("symbol", .s symbol.toUpper), ("side", .s side.toUpper), ("type", .s "MARKET"),
   ("quantity", .f quantity), ("reduceOnly", .s (if reduce_only then "true" else "false"))]

/-- `BasicBot.place_market_order`. -/
def place_market_order (bot : BasicBot) (now : Int) (symbol side : String)
    (quantity : Rat) (reduce_only : Bool := false) : Params × Request :=
  post bot now "/fapi/v1/order" (marketOrderParams symbol side quantity reduce_only)

/-- Parameter mapping built by `place_limit_order` before signing. -/
def limitOrderParams (symbol side : String) (quantity price : Rat)
    (time_in_force : String) : Params :=
  [("symbol", .s symbol.toUpper), ("side", .s side.toUpper), ("type", .s "LIMIT"),
   ("quantity", .f quantity), ("price", .f price), ("timeInForce", .s time_in_force)]

/-- `BasicBot.place_limit_order`. -/
def place_limit_order (bot : BasicBot) (now : Int) (symbol side : String)
    (quantity price : Rat) (time_in_force : String := "GTC") : Params × Request :=
  post bot now "/fapi/v1/order" (limitOrderParams symbol side quantity price time_in_force)

/-- Parameter mapping built by `place_stop_limit_order` before signing:
wire type `STOP`, trigger at `stopPrice`, resting limit at `price`. -/
def stopLimitOrderParams (symbol side : String) (quantity stop_price limit_price : Rat)
    (time_in_force : String) : Params :=
  [("symbol", .s symbol.toUpper), ("side", .s side.toUpper), ("type", .s "STOP"),
   ("quantity", .f quantity), ("price", .f limit_price), ("stopPrice", .f stop_price),
   ("timeInForce", .s time_in_force)]

/-- `BasicBot.place_stop_limit_order`. -/
def place_stop_limit_order (bot : BasicBot) (now : Int) (symbol side : String)
    (quantity stop_price limit_price : Rat) (time_in_force : String := "GTC") :
    Params × Request :=
  post bot now "/fapi/v1/order"
    (stopLimitOrderParams symbol side quantity stop_price limit_price time_in_force)

/-- `BasicBot.get_account_info`: signed GET of the account endpoint. -/
def get_account_info (bot : BasicBot) (now : Int) : Params × Request :=
  let params : Params := [("timestamp", .i now), ("recvWindow", .i bot.recvWindow)]
  let p := setItem params "signature" (.s (sign bot.apiSecret params))
  (p, ⟨bot.baseUrl ++ "/fapi/v2/account", [("X-MBX-APIKEY", bot.apiKey)], p⟩)

/-! ## The CLI (`cli.py`)

`main` is modelled as a function of the parsed command line, the two
environment variables, the clock, and the network outcome; its result is
the process exit code, the list of requests actually issued, and the
summary lines printed. `argparse` failures (bad choice values,
`ArgumentTypeError` from `positive_float`) make the process exit with
code 2 before `main`'s body runs; `parser.exit(n)` raises `SystemExit`,
which the `except Exception` handler does not catch. -/

/-- A JSON value, for the parsed response body. -/
inductive JVal where
  | str (s : String)
  | num (q : Rat)
  | boolean (b : Bool)
  | null
  | arr (elems : List JVal)
  | obj (fields : List (String × JVal))

/-- A parsed JSON object response, as key/value fields. -/
abbrev JResp : Type := List (String × JVal)

/-- Failure of the remote call: non-success HTTP status
(`raise_for_status`) or a transport-level error, both raised out of
`_post` as a caught exception. -/
inductive PostError where
  | requestFailed (status : Nat) (body : String)
  | transportFailed (msg : String)

/-- `positive_float` from `cli.py`: the argument is `float(v)` when the
flag text parses as a number, `none` otherwise; non-numbers and
non-positive numbers raise `ArgumentTypeError`. -/
def positive_float (v : Option Rat) : Except String Rat :=
  match v with
  | none => .error "Must be a number"
  | some f => if f ≤ 0 then .error "Must be positive" else .ok f

/-- The raw command line as handed to `argparse`: each numeric flag is
`none` when absent, `some none` when its text is not / does not parse as a
number, and `some (some q)` when it parses to the value `q`. -/
structure RawArgs where
  symbol : String
  side : String
  otype : String
  quantity : Option Rat
  price : Option (Option Rat)
  stop_price : Option (Option Rat)
  tif : Option String
  deriving DecidableEq

/-- Order type after `choices` validation. -/
inductive OType where
  | MARKET
  | LIMIT
  | STOPLIMIT
  deriving DecidableEq

/-- The validated `args` namespace produced by `parser.parse_args()`. -/
structure Args where
  symbol : String
  side : String
  otype : OType
  quantity : Rat
  price : Option Rat
  stop_price : Option Rat
  tif : String
  deriving DecidableEq

/-- The `choices=["BUY","SELL"]` check on `--side`. -/
def parseSide (s : String) : Option String :=
  if s = "BUY" ∨ s = "SELL" then some s else none

/-- The `choices=["MARKET","LIMIT","STOPLIMIT"]` check on `--type`. -/
def parseOType (s : String) : Option OType :=
  if s = "MARKET" then some .MARKET
  else if s = "LIMIT" then some .LIMIT
  else if s = "STOPLIMIT" then some .STOPLIMIT
  else none

/-- An optional flag of type `positive_float`: absent flags stay absent,
present flags are validated. -/
def parseOptFlag (v : Option (Option Rat)) : Except String (Option Rat) :=
  match v with
  | none => .ok none
  | some raw => (positive_float raw).map some

/-- The `--time-in-force` flag: default `GTC`, `choices` validated. -/
def parseTif (t : Option String) : Option String :=
  match t with
  | none => some "GTC"
  | some s => if s = "GTC" ∨ s = "IOC" ∨ s = "FOK" then some s else none

/-- `parser.parse_args()`: every parse or validation failure makes
`argparse` exit the process with code 2. -/
def parseArgs (r : RawArgs) : Except Nat Args :=
  match parseSide r.side, parseOType r.otype, positive_float r.quantity,
      parseOptFlag r.price, parseOptFlag r.stop_price, parseTif r.tif with
  | some side, some ot, .ok q, .ok p, .ok sp, some t =>
      .ok ⟨r.symbol, side, ot, q, p, sp, t⟩
  | _, _, _, _, _, _ => .error 2

/-- The fixed allow-list of response fields the CLI prints. -/
def summaryKeys : List String :=
  ["symbol", "orderId", "status", "avgPrice", "price", "origQty", "executedQty", "side", "type"]

/-- First value bound to `k` in a response object, modelling `res[k]`. -/
def lookupJ : JResp → String → Option JVal
  | [], _ => none
  | (k0, v0) :: t, k => if k0 = k then some v0 else lookupJ t k

/-- The summary loop of `cli.py`: for each allow-listed key present in the
response, one printed `key: value` line, in allow-list order. -/
def summarize (res : JResp) : List (String × JVal) :=
  summaryKeys.filterMap (fun k => (lookupJ res k).map (fun v => (k, v)))

/-- The observable outcome of one CLI invocation. -/
structure MainOut where
  exitCode : Nat
  calls : List Request
  printed : List (String × JVal)

/-- The tail of the `try` block after an order call: on a raised
`RequestException` (or any exception) the handler exits 2; on success the
summary is printed and the process falls off `main` with exit 0. The
request was issued either way. -/
def finish (req : Request) (resp : Except PostError JResp) : MainOut :=
  match resp with
  | .error _ => ⟨2, [req], []⟩
  | .ok j => ⟨0, [req], summarize j⟩

/-- The `try` block of `main`: dispatch on the order type, check the
per-type required flags (`if not args.price`-style truthiness tests:
`None` and `0.0` are falsy), place the order. -/
def afterCreds (bot : BasicBot) (args : Args) (now : Int)
    (resp : Except PostError JResp) : MainOut :=
  match args.otype with
  | .MARKET =>
      finish (place_market_order bot now args.symbol args.side args.quantity).2 resp
  | .LIMIT =>
      match args.price with
      | none => ⟨1, [], []⟩
      | some p =>
          if p = 0 then ⟨1, [], []⟩
          else finish (place_limit_order bot now args.symbol args.side args.quantity p args.tif).2 resp
  | .STOPLIMIT =>
      match args.stop_price with
      | none => ⟨1, [], []⟩
      | some sp =>
          if sp = 0 then ⟨1, [], []⟩
          else
            match args.price with
            | none => ⟨1, [], []⟩
            | some p =>
                if p = 0 then ⟨1, [], []⟩
                else finish (place_stop_limit_order bot now args.symbol args.side args.quantity sp p args.tif).2 resp

/-- The two credential environment variables. -/
structure Env where
  apiKey : Option String
  apiSecret : Option String
  deriving DecidableEq

/-- `main` from `cli.py`: parse, check credentials, build the bot, place
the order, summarize. -/
def mainRun (env : Env) (r : RawArgs) (now : Int)
    (resp : Except PostError JResp) : MainOut :=
  match parseArgs r with
  | .error c => ⟨c, [], []⟩
  | .ok args =>
      match env.apiKey, env.apiSecret with
      | some key, some sec =>
          if key = "" ∨ sec = "" then ⟨1, [], []⟩
          else afterCreds (mkBot key sec) args now resp
      | _, _ => ⟨1, [], []⟩

/-! ## Lemmas about the embedding -/

/-- The sixteen lowercase hexadecimal digit characters. -/
def hexDigits : List Char :=
  ['0', '1', '2', '3', '4', '5', '6', '7', '8', '9'] ++ ['a', 'b', 'c', 'd', 'e', 'f']

theorem hexChar_mem {n : Nat} (h : n < 16) : hexChar n ∈ hexDigits := by
  interval_cases n <;> decide

theorem length_hexPairs (l : List Nat) :
    (l.flatMap (fun b => [hexChar (b / 16 % 16), hexChar (b % 16)])).length = 2 * l.length := by
  induction l with
  | nil => rfl
  | cons x xs ih =>
      rw [List.flatMap_cons, List.length_append, ih, List.length_cons, List.length_cons,
        List.length_cons, List.length_nil]
      omega

theorem mem_hexPairs {c : Char} {l : List Nat}
    (h : c ∈ l.flatMap (fun b => [hexChar (b / 16 % 16), hexChar (b % 16)])) :
    c ∈ hexDigits := by
  rcases List.mem_flatMap.mp h with ⟨b, _, hc⟩
  rcases List.mem_cons.mp hc with h1 | h2
  · exact h1 ▸ hexChar_mem (Nat.mod_lt _ (by omega))
  · rcases List.mem_cons.mp h2 with h3 | h4
    · exact h3 ▸ hexChar_mem (Nat.mod_lt _ (by omega))
    · simp at h4

theorem hashBytes_length (st : H8) : (hashBytes st).length = 32 := rfl

theorem sha256_length (msg : List Nat) : (sha256 msg).length = 32 :=
  hashBytes_length _

theorem hmacSha256_length (key msg : List Nat) : (hmacSha256 key msg).length = 32 :=
  sha256_length _

theorem setItem_ne_nil (l : Params) (k : String) (v : PValue) : setItem l k v ≠ [] := by
  cases l with
  | nil => simp [setItem]
  | cons x t => obtain ⟨k0, v0⟩ := x; unfold setItem; split <;> simp

theorem lookupP_setItem_ne (l : Params) (k k' : String) (v : PValue) (h : k ≠ k') :
    lookupP (setItem l k v) k' = lookupP l k' := by
  induction l with
  | nil => simp [setItem, lookupP, h]
  | cons x t ih =>
      obtain ⟨k0, v0⟩ := x
      by_cases h0 : k0 = k
      · subst h0
        simp [setItem, lookupP, h]
      · simp [setItem, h0, lookupP, ih]

theorem setItem_append_of_absent (l : Params) (k : String) (v : PValue)
    (h : lookupP l k = none) : setItem l k v = l ++ [(k, v)] := by
  induction l with
  | nil => rfl
  | cons x t ih =>
      obtain ⟨k0, v0⟩ := x
      by_cases h0 : k0 = k
      · simp [lookupP, h0] at h
      · simp only [lookupP, if_neg h0] at h
        simp [setItem, h0, ih h]

theorem lookupP_append (l r : Params) (k : String) :
    lookupP (l ++ r) k =
      match lookupP l k with
      | some v => some v
      | none => lookupP r k := by
  induction l with
  | nil => rfl
  | cons x t ih =>
      obtain ⟨k0, v0⟩ := x
      by_cases h0 : k0 = k
      · simp [lookupP, h0]
      · simp [lookupP, h0, ih]

theorem str_append_assoc (a b c : String) : a ++ b ++ c = a ++ (b ++ c) :=
  congrArg String.mk (List.append_assoc a.data b.data c.data)

theorem urlencode_append_single (l : Params) (x : String × PValue) (h : l ≠ []) :
    urlencode (l ++ [x]) = urlencode l ++ "&" ++ encPair x := by
  induction l with
  | nil => exact absurd rfl h
  | cons y t ih =>
      cases t with
      | nil => rfl
      | cons z t2 =>
          have ih2 := ih (by simp)
          have hl : urlencode ((y :: z :: t2) ++ [x])
              = encPair y ++ "&" ++ urlencode ((z :: t2) ++ [x]) := rfl
          have hr : urlencode (y :: z :: t2) = encPair y ++ "&" ++ urlencode (z :: t2) := rfl
          rw [hl, ih2, hr]
          simp only [str_append_assoc]

/-! ## Claim theorems for the bot -/

/-- C3: for every parameter mapping and every non-empty secret, the sign
operation returns the lowercase-hex rendering of the SHA-256-based HMAC
of the canonical query string; the result has exactly 64 characters, all
of them lowercase hexadecimal digits, and (being a pure function of the
secret and the mapping) two calls with the same secret and mapping return
the same string. -/
theorem C3_sign_hex_deterministic (secret : List Nat) (params : Params)
    (_hs : secret ≠ []) :
    sign secret params = hexOfBytes (hmacSha256 secret (strBytes (urlencode params)))
    ∧ (sign secret params).length = 64
    ∧ (∀ c ∈ (sign secret params).data, c ∈ hexDigits)
    ∧ sign secret params = sign secret params := by
  refine ⟨rfl, ?_, ?_, rfl⟩
  · have h1 : (sign secret params).length =
        ((hmacSha256 secret (strBytes (urlencode params))).flatMap
          (fun b => [hexChar (b / 16 % 16), hexChar (b % 16)])).length := rfl
    rw [h1, length_hexPairs, hmacSha256_length]
  · intro c hc
    exact mem_hexPairs hc

/-- Witness for C3 at the spec's own fixed secret. -/
theorem C3_witness :
    (strBytes "secret" ≠ [])
    ∧ ((sign (strBytes "secret")
          [("symbol", .s "BTCUSDT"), ("side", .s "BUY"), ("type", .s "MARKET"),
           ("quantity", .f 1), ("timestamp", .i 1000), ("recvWindow", .i 5000)]).length = 64) :=
  ⟨by decide,
   (C3_sign_hex_deterministic (strBytes "secret")
      [("symbol", .s "BTCUSDT"), ("side", .s "BUY"), ("type", .s "MARKET"),
       ("quantity", .f 1), ("timestamp", .i 1000), ("recvWindow", .i 5000)]
      (by decide)).2.1⟩

/-- C4: the parameter mapping a MARKET order builds before signing has no
`price`, `stopPrice` or `timeInForce` key for any `reduce_only` flag,
carries `type` `MARKET` and the uppercased symbol and side, and with the
default `reduce_only = False` serializes `reduceOnly` as the lowercase
string `false`. -/
theorem C4_market_order_params (symbol side : String) (quantity : Rat) (ro : Bool) :
    lookupP (marketOrderParams symbol side quantity ro) "price" = none
    ∧ lookupP (marketOrderParams symbol side quantity ro) "stopPrice" = none
    ∧ lookupP (marketOrderParams symbol side quantity ro) "timeInForce" = none
    ∧ lookupP (marketOrderParams symbol side quantity false) "reduceOnly" = some (.s "false")
    ∧ lookupP (marketOrderParams symbol side quantity ro) "type" = some (.s "MARKET")
    ∧ lookupP (marketOrderParams symbol side quantity ro) "symbol" = some (.s symbol.toUpper)
    ∧ lookupP (marketOrderParams symbol side quantity ro) "side" = some (.s side.toUpper) :=
  ⟨rfl, rfl, rfl, rfl, rfl, rfl, rfl⟩

/-- C5: the parameter mapping a STOP_LIMIT order builds before signing
maps `stopPrice` to the stop price, `price` to the limit price, `type` to
the wire value `STOP`, and `timeInForce` to the given time-in-force; the
method's default time-in-force is `GTC`. -/
theorem C5_stop_limit_params (bot : BasicBot) (now : Int) (symbol side : String)
    (q sp lp : Rat) (tif : String) :
    lookupP (stopLimitOrderParams symbol side q sp lp tif) "stopPrice" = some (.f sp)
    ∧ lookupP (stopLimitOrderParams symbol side q sp lp tif) "price" = some (.f lp)
    ∧ lookupP (stopLimitOrderParams symbol side q sp lp tif) "type" = some (.s "STOP")
    ∧ lookupP (stopLimitOrderParams symbol side q sp lp tif) "timeInForce" = some (.s tif)
    ∧ lookupP (place_stop_limit_order bot now symbol side q sp lp).1 "timeInForce"
        = some (.s "GTC") :=
  ⟨rfl, rfl, rfl, rfl, rfl⟩

/-- C7: the summarize step extracts exactly the allow-listed fields that
are present in the response object, ignores every other field, omits
absent fields, and is a total function of the response. -/
theorem C7_summarize_allowlist (res : JResp) (k : String) (v : JVal) :
    (k, v) ∈ summarize res ↔ k ∈ summaryKeys ∧ lookupJ res k = some v := by
  constructor
  · intro h
    rcases List.mem_filterMap.mp h with ⟨a, ha, hfa⟩
    rcases Option.map_eq_some'.mp hfa with ⟨w, hw, hkv⟩
    rcases Prod.mk.injEq .. ▸ hkv with ⟨hak, hwv⟩
    exact ⟨hak ▸ ha, hak ▸ hwv ▸ hw⟩
  · intro ⟨hk, hl⟩
    exact List.mem_filterMap.mpr ⟨k, hk, by rw [hl]; rfl⟩

/-- C8: every request the bot sends carries the API key in the
`X-MBX-APIKEY` header and nowhere else — the transmitted parameter
mapping does not depend on the API key at all — and the API secret enters
the parameter mapping only through the signature field, i.e. only as the
key of the HMAC in `sign`. -/
theorem C8_credentials_isolation (bot : BasicBot) (now : Int) (path : String)
    (params : Params) (k2 : String) :
    (post bot now path params).2.headers = [("X-MBX-APIKEY", bot.apiKey)]
    ∧ (get_account_info bot now).2.headers = [("X-MBX-APIKEY", bot.apiKey)]
    ∧ (post { bot with apiKey := k2 } now path params).2.params
        = (post bot now path params).2.params
    ∧ (get_account_info { bot with apiKey := k2 } now).2.params
        = (get_account_info bot now).2.params
    ∧ (post bot now path params).1
        = setItem (signedParams bot now params) "signature"
            (.s (sign bot.apiSecret (signedParams bot now params))) :=
  ⟨rfl, rfl, rfl, rfl, rfl⟩

/-- C1 (amended): for every parameter mapping that does not already
contain a `signature` key, the query string `requests` transmits is
exactly the query string the HMAC was computed over — the mapping after
`timestamp` and `recvWindow` are injected — followed by the `signature`
field appended last; the signature field itself is excluded from the
signed payload. -/
theorem C1_signed_query_roundtrip (bot : BasicBot) (now : Int) (path : String)
    (params : Params) (h : lookupP params "signature" = none) :
    transmittedQuery (post bot now path params).2 =
      urlencode (signedParams bot now params) ++ "&" ++
        ("signature=" ++ quotePlus (sign bot.apiSecret (signedParams bot now params))) := by
  have h2 : lookupP (signedParams bot now params) "signature" = none := by
    unfold signedParams
    rw [lookupP_setItem_ne _ _ _ _ (by decide), lookupP_setItem_ne _ _ _ _ (by decide)]
    exact h
  have h3 : (post bot now path params).2.params =
      signedParams bot now params ++
        [("signature", .s (sign bot.apiSecret (signedParams bot now params)))] :=
    setItem_append_of_absent _ _ _ h2
  have hne : signedParams bot now params ≠ [] := setItem_ne_nil _ _ _
  show urlencode (post bot now path params).2.params = _
  rw [h3, urlencode_append_single _ _ hne]
  congr 1

/-- Witness for C1 at a concrete market order. -/
theorem C1_witness :
    lookupP (marketOrderParams "BTCUSDT" "BUY" 1 false) "signature" = none
    ∧ transmittedQuery
        (post (mkBot "key" "secret") 1000 "/fapi/v1/order"
          (marketOrderParams "BTCUSDT" "BUY" 1 false)).2 =
      urlencode (signedParams (mkBot "key" "secret") 1000
          (marketOrderParams "BTCUSDT" "BUY" 1 false)) ++ "&" ++
        ("signature=" ++ quotePlus (sign (mkBot "key" "secret").apiSecret
          (signedParams (mkBot "key" "secret") 1000
            (marketOrderParams "BTCUSDT" "BUY" 1 false)))) :=
  ⟨rfl, C1_signed_query_roundtrip (mkBot "key" "secret") 1000 "/fapi/v1/order"
      (marketOrderParams "BTCUSDT" "BUY" 1 false) rfl⟩

/-- Counterexample to C1 as stated: for the parameter mapping that already
binds `signature` (here to `"x"`), the payload handed to `_sign` still
contains the signature field — it is not excluded — and in the transmitted
mapping the recomputed signature sits first (updated in place by dict
assignment), not appended last. -/
theorem C1_counterexample :
    lookupP (signedParams (mkBot "key" "secret") 1000 [("signature", PValue.s "x")])
        "signature" = some (.s "x")
    ∧ ((post (mkBot "key" "secret") 1000 "/fapi/v1/order"
          [("signature", PValue.s "x")]).1.map Prod.fst)
        = ["signature", "timestamp", "recvWindow"] :=
  ⟨rfl, rfl⟩

/-- C9 (amended): provided the caller's mapping does not already contain a
`timestamp`, `recvWindow` or `signature` key, `_post` mutates it in place
to additionally hold exactly those three entries, appended in that order
(this happens before the network call, so it is visible whether or not
the call raises), and every entry present before the call is unchanged. -/
theorem C9_post_mutates_params (bot : BasicBot) (now : Int) (path : String)
    (params : Params)
    (h1 : lookupP params "timestamp" = none)
    (h2 : lookupP params "recvWindow" = none)
    (h3 : lookupP params "signature" = none) :
    (post bot now path params).1 =
      params ++ [("timestamp", .i now), ("recvWindow", .i bot.recvWindow),
        ("signature", .s (sign bot.apiSecret (signedParams bot now params)))]
    ∧ ∀ k v, lookupP params k = some v → lookupP (post bot now path params).1 k = some v := by
  have e1 : setItem params "timestamp" (.i now) = params ++ [("timestamp", .i now)] :=
    setItem_append_of_absent _ _ _ h1
  have h2a : lookupP (setItem params "timestamp" (.i now)) "recvWindow" = none := by
    rw [lookupP_setItem_ne _ _ _ _ (by decide)]; exact h2
  have e2 : signedParams bot now params
      = params ++ [("timestamp", .i now), ("recvWindow", .i bot.recvWindow)] := by
    unfold signedParams
    rw [setItem_append_of_absent _ _ _ h2a, e1, List.append_assoc]
    rfl
  have h3a : lookupP (signedParams bot now params) "signature" = none := by
    unfold signedParams
    rw [lookupP_setItem_ne _ _ _ _ (by decide), lookupP_setItem_ne _ _ _ _ (by decide)]
    exact h3
  have e3 : (post bot now path params).1 =
      params ++ [("timestamp", .i now), ("recvWindow", .i bot.recvWindow),
        ("signature", .s (sign bot.apiSecret (signedParams bot now params)))] := by
    show setItem (signedParams bot now params) "signature" _ = _
    rw [setItem_append_of_absent _ _ _ h3a, e2, List.append_assoc]
    rfl
  refine ⟨e3, fun k v hkv => ?_⟩
  rw [e3, lookupP_append, hkv]

/-- Witness for C9 at a concrete market order mapping. -/
theorem C9_witness :
    (post (mkBot "key" "secret") 1000 "/fapi/v1/order"
        (marketOrderParams "BTCUSDT" "BUY" 1 false)).1 =
      marketOrderParams "BTCUSDT" "BUY" 1 false ++
        [("timestamp", .i 1000), ("recvWindow", .i (mkBot "key" "secret").recvWindow),
         ("signature", .s (sign (mkBot "key" "secret").apiSecret
            (signedParams (mkBot "key" "secret") 1000
              (marketOrderParams "BTCUSDT" "BUY" 1 false))))] :=
  (C9_post_mutates_params (mkBot "key" "secret") 1000 "/fapi/v1/order"
    (marketOrderParams "BTCUSDT" "BUY" 1 false) rfl rfl rfl).1

/-- Counterexample to C9 as stated: a mapping that already binds
`timestamp` (to 1) has that entry overwritten in place (to the clock
value 2) by `_post`, so an entry present before the call is changed. -/
theorem C9_counterexample :
    lookupP [("timestamp", PValue.i 1)] "timestamp" = some (.i 1)
    ∧ lookupP (post (mkBot "key" "secret") 2 "/fapi/v1/order"
        [("timestamp", PValue.i 1)]).1 "timestamp" = some (.i 2)
    ∧ PValue.i 1 ≠ PValue.i 2 :=
  ⟨rfl, rfl, by decide⟩

/-! ## Lemmas about the CLI embedding -/

theorem positive_float_ok {v : Option Rat} {q : Rat} (h : positive_float v = .ok q) :
    v = some q ∧ 0 < q := by
  cases v with
  | none => simp [positive_float] at h
  | some f =>
      by_cases hle : f ≤ 0
      · simp [positive_float, hle] at h
      · simp only [positive_float, if_neg hle] at h
        injection h with h1
        subst h1
        exact ⟨rfl, lt_of_not_le hle⟩

theorem parseOptFlag_ok {v : Option (Option Rat)} {p : Option Rat}
    (h : parseOptFlag v = .ok p) :
    (v = none ∧ p = none) ∨ ∃ q, v = some (some q) ∧ p = some q ∧ 0 < q := by
  cases v with
  | none =>
      left
      simp only [parseOptFlag] at h
      injection h with h1
      exact ⟨rfl, h1.symm⟩
  | some raw =>
      right
      simp only [parseOptFlag] at h
      cases hpf : positive_float raw with
      | error m => rw [hpf] at h; simp [Except.map] at h
      | ok q =>
          rw [hpf] at h
          simp only [Except.map] at h
          injection h with h1
          rcases positive_float_ok hpf with ⟨hr, hq⟩
          exact ⟨q, by rw [hr], h1.symm, hq⟩

theorem parseArgs_ok {r : RawArgs} {a : Args} (h : parseArgs r = .ok a) :
    a.symbol = r.symbol ∧ parseSide r.side = some a.side
    ∧ parseOType r.otype = some a.otype
    ∧ positive_float r.quantity = .ok a.quantity
    ∧ parseOptFlag r.price = .ok a.price
    ∧ parseOptFlag r.stop_price = .ok a.stop_price
    ∧ parseTif r.tif = some a.tif := by
  unfold parseArgs at h
  split at h
  next side ot q p sp t hside hot hq hp hsp ht =>
      injection h with h1
      subst h1
      exact ⟨rfl, hside, hot, hq, hp, hsp, ht⟩
  next => simp at h

theorem parseArgs_error {r : RawArgs} {c : Nat} (h : parseArgs r = .error c) : c = 2 := by
  unfold parseArgs at h
  split at h
  next => simp at h
  next =>
      injection h with h1
      exact h1.symm

/-! ## Predicates used to state the CLI claims -/

/-- Python truthiness failure of a numeric flag value: not a number, or a
number that is not strictly positive. -/
def badNum : Option Rat → Prop
  | none => True
  | some q => q ≤ 0

/-- An optional numeric flag that was provided but fails validation. -/
def badOptFlag : Option (Option Rat) → Prop
  | none => False
  | some v => badNum v

/-- An intent that is invalid per the claim: a required per-type flag is
absent, or a provided numeric field is not strictly positive (or not a
number at all). -/
def invalidIntent (r : RawArgs) : Prop :=
  (r.otype = "LIMIT" ∧ r.price = none)
  ∨ (r.otype = "STOPLIMIT" ∧ (r.price = none ∨ r.stop_price = none))
  ∨ badNum r.quantity ∨ badOptFlag r.price ∨ badOptFlag r.stop_price

theorem badNum_not_ok {v : Option Rat} (hb : badNum v) (q : Rat) :
    positive_float v ≠ .ok q := by
  intro h
  rcases positive_float_ok h with ⟨hv, hq⟩
  subst hv
  exact absurd (show q ≤ 0 from hb) (not_le.mpr hq)

theorem badOptFlag_not_ok {v : Option (Option Rat)} (hb : badOptFlag v) (p : Option Rat) :
    parseOptFlag v ≠ .ok p := by
  intro h
  rcases parseOptFlag_ok h with ⟨hv, _⟩ | ⟨q, hv, _, hq⟩
  · subst hv; exact hb
  · subst hv
    exact absurd (show q ≤ 0 from hb) (not_le.mpr hq)

theorem mainRun_exit1_of_afterCreds (env : Env) (r : RawArgs) (now : Int)
    (resp : Except PostError JResp) (args : Args) (hp : parseArgs r = .ok args)
    (hac : ∀ bot, afterCreds bot args now resp = ⟨1, [], []⟩) :
    mainRun env r now resp = ⟨1, [], []⟩ := by
  rcases env with ⟨ek, es⟩
  cases ek with
  | none => simp [mainRun, hp]
  | some key =>
      cases es with
      | none => simp [mainRun, hp]
      | some sec =>
          simp only [mainRun, hp]
          by_cases hks : key = "" ∨ sec = ""
          · rw [if_pos hks]
          · rw [if_neg hks]
            exact hac _

/-- C2: every intent missing a required field for its selected order type,
or whose quantity, price or stop price is not strictly positive, makes the
program fail (argparse exit 2 or `parser.exit(1)`, the spec's
`InvalidIntent`) before any network call is issued. -/
theorem C2_invalid_intent_no_network (env : Env) (r : RawArgs) (now : Int)
    (resp : Except PostError JResp) (h : invalidIntent r) :
    (mainRun env r now resp).calls = [] ∧ (mainRun env r now resp).exitCode ≠ 0 := by
  cases hp : parseArgs r with
  | error c =>
      have hc := parseArgs_error hp
      subst hc
      simp [mainRun, hp]
  | ok args =>
      rcases parseArgs_ok hp with ⟨_, _, hot, hq, hprice, hstop, _⟩
      have exit1 : (∀ bot, afterCreds bot args now resp = ⟨1, [], []⟩) →
          (mainRun env r now resp).calls = [] ∧ (mainRun env r now resp).exitCode ≠ 0 := by
        intro hac
        rw [mainRun_exit1_of_afterCreds env r now resp args hp hac]
        exact ⟨rfl, by decide⟩
      rcases h with ⟨hty, hpr⟩ | ⟨hty, hpr⟩ | hb | hb | hb
      · -- LIMIT with the price flag absent
        have hot2 : args.otype = OType.LIMIT := by
          rw [hty] at hot
          simpa [parseOType] using hot.symm
        have hpr2 : args.price = none := by
          rw [hpr] at hprice
          simp only [parseOptFlag] at hprice
          injection hprice with h1
          exact h1.symm
        exact exit1 fun bot => by simp [afterCreds, hot2, hpr2]
      · -- STOPLIMIT with the price or stop-price flag absent
        have hot2 : args.otype = OType.STOPLIMIT := by
          rw [hty] at hot
          simpa [parseOType] using hot.symm
        rcases hpr with hpr | hsp
        · have hpr2 : args.price = none := by
            rw [hpr] at hprice
            simp only [parseOptFlag] at hprice
            injection hprice with h1
            exact h1.symm
          rcases parseOptFlag_ok hstop with ⟨_, hsp2⟩ | ⟨q, _, hsp2, hqpos⟩
          · exact exit1 fun bot => by simp [afterCreds, hot2, hsp2]
          · exact exit1 fun bot => by simp [afterCreds, hot2, hsp2, ne_of_gt hqpos, hpr2]
        · have hsp2 : args.stop_price = none := by
            rw [hsp] at hstop
            simp only [parseOptFlag] at hstop
            injection hstop with h1
            exact h1.symm
          exact exit1 fun bot => by simp [afterCreds, hot2, hsp2]
      · exact absurd hq (badNum_not_ok hb _)
      · exact absurd hprice (badOptFlag_not_ok hb _)
      · exact absurd hstop (badOptFlag_not_ok hb _)

/-- Witness for C2: a LIMIT intent without a price flag. -/
theorem C2_witness :
    (mainRun ⟨some "k", some "s"⟩ ⟨"BTCUSDT", "BUY", "LIMIT", some 1, none, none, none⟩
        0 (.ok [])).calls = []
    ∧ (mainRun ⟨some "k", some "s"⟩ ⟨"BTCUSDT", "BUY", "LIMIT", some 1, none, none, none⟩
        0 (.ok [])).exitCode ≠ 0 :=
  C2_invalid_intent_no_network ⟨some "k", some "s"⟩
    ⟨"BTCUSDT", "BUY", "LIMIT", some 1, none, none, none⟩ 0 (.ok [])
    (Or.inl ⟨rfl, rfl⟩)

/-- The `if not api_key or not api_secret` failure condition of `main`:
an environment variable that is unset or empty. -/
def credsMissing (env : Env) : Prop :=
  env.apiKey = none ∨ env.apiKey = some "" ∨ env.apiSecret = none ∨ env.apiSecret = some ""

/-- Python falsiness of a validated optional flag value. -/
def pyFalsyOptQ : Option Rat → Prop
  | none => True
  | some q => q = 0

/-- A required flag for the chosen order type is missing (falsy) at the
point of the per-type checks in `main`. -/
def missingTypeFlag (args : Args) : Prop :=
  (args.otype = .LIMIT ∧ pyFalsyOptQ args.price)
  ∨ (args.otype = .STOPLIMIT ∧ (pyFalsyOptQ args.stop_price ∨ pyFalsyOptQ args.price))

theorem mainRun_credsMissing {env : Env} {r : RawArgs} {now : Int}
    {resp : Except PostError JResp} {args : Args} (hp : parseArgs r = .ok args)
    (hc : credsMissing env) : mainRun env r now resp = ⟨1, [], []⟩ := by
  rcases env with ⟨ek, es⟩
  cases ek with
  | none => simp [mainRun, hp]
  | some key =>
      cases es with
      | none => simp [mainRun, hp]
      | some sec =>
          simp only [mainRun, hp]
          rcases hc with h1 | h1 | h1 | h1
          · simp at h1
          · injection h1 with h2
            rw [if_pos (Or.inl h2)]
          · simp at h1
          · injection h1 with h2
            rw [if_pos (Or.inr h2)]

theorem mainRun_credsOk {env : Env} {r : RawArgs} (now : Int)
    (resp : Except PostError JResp) {args : Args} (hp : parseArgs r = .ok args)
    (hc : ¬credsMissing env) :
    ∃ key sec, mainRun env r now resp = afterCreds (mkBot key sec) args now resp := by
  rcases env with ⟨ek, es⟩
  cases ek with
  | none => exact absurd (Or.inl rfl) hc
  | some key =>
      cases es with
      | none => exact absurd (Or.inr (Or.inr (Or.inl rfl))) hc
      | some sec =>
          refine ⟨key, sec, ?_⟩
          have hks : ¬(key = "" ∨ sec = "") := by
            intro hks
            rcases hks with h1 | h2
            · exact hc (Or.inr (Or.inl (by rw [h1])))
            · exact hc (Or.inr (Or.inr (Or.inr (by rw [h2]))))
          simp only [mainRun, hp]
          rw [if_neg hks]

theorem afterCreds_exit1 (bot : BasicBot) (args : Args) (now : Int)
    (resp : Except PostError JResp) (hmf : missingTypeFlag args) :
    (afterCreds bot args now resp).exitCode = 1 := by
  rcases hmf with ⟨hot, hpf⟩ | ⟨hot, hpf⟩
  · cases hpr : args.price with
    | none => simp [afterCreds, hot, hpr]
    | some p =>
        have hp0 : p = 0 := by rw [hpr] at hpf; exact hpf
        simp [afterCreds, hot, hpr, hp0]
  · rcases hpf with hsp | hppr
    · cases hs : args.stop_price with
      | none => simp [afterCreds, hot, hs]
      | some sp =>
          have hsp0 : sp = 0 := by rw [hs] at hsp; exact hsp
          simp [afterCreds, hot, hs, hsp0]
    · cases hs : args.stop_price with
      | none => simp [afterCreds, hot, hs]
      | some sp =>
          by_cases hsp0 : sp = 0
          · simp [afterCreds, hot, hs, hsp0]
          · cases hpr : args.price with
            | none => simp [afterCreds, hot, hs, hsp0, hpr]
            | some p =>
                have hp0 : p = 0 := by rw [hpr] at hppr; exact hppr
                simp [afterCreds, hot, hs, hsp0, hpr, hp0]

theorem afterCreds_places (bot : BasicBot) (args : Args) (now : Int)
    (resp : Except PostError JResp)
    (hpos1 : ∀ q, args.price = some q → 0 < q)
    (hpos2 : ∀ q, args.stop_price = some q → 0 < q)
    (hmf : ¬missingTypeFlag args) :
    ∃ req, afterCreds bot args now resp = finish req resp := by
  cases hot : args.otype with
  | MARKET =>
      exact ⟨(place_market_order bot now args.symbol args.side args.quantity).2,
        by simp [afterCreds, hot]⟩
  | LIMIT =>
      cases hpr : args.price with
      | none => exact absurd (Or.inl ⟨hot, by rw [hpr]; trivial⟩) hmf
      | some p =>
          have hp0 : ¬p = 0 := ne_of_gt (hpos1 p hpr)
          exact ⟨(place_limit_order bot now args.symbol args.side args.quantity p args.tif).2,
            by simp [afterCreds, hot, hpr, hp0]⟩
  | STOPLIMIT =>
      cases hs : args.stop_price with
      | none => exact absurd (Or.inr ⟨hot, Or.inl (by rw [hs]; trivial)⟩) hmf
      | some sp =>
          have hsp0 : ¬sp = 0 := ne_of_gt (hpos2 sp hs)
          cases hpr : args.price with
          | none => exact absurd (Or.inr ⟨hot, Or.inr (by rw [hpr]; trivial)⟩) hmf
          | some p =>
              have hp0 : ¬p = 0 := ne_of_gt (hpos1 p hpr)
              exact ⟨(place_stop_limit_order bot now args.symbol args.side
                  args.quantity sp p args.tif).2,
                by simp [afterCreds, hot, hs, hsp0, hpr, hp0]⟩

/-- C6: with a command line that passes argument parsing, the CLI process
exits with code 1 when credentials are missing, exits with code 1 when a
required flag for the chosen order type is missing, exits with code 2 when
the remote call or transport fails, and exits with code 0 on success. -/
theorem C6_exit_codes (env : Env) (r : RawArgs) (now : Int)
    (resp : Except PostError JResp) (args : Args) (hp : parseArgs r = .ok args) :
    (credsMissing env → mainRun env r now resp = ⟨1, [], []⟩)
    ∧ (¬credsMissing env → missingTypeFlag args → (mainRun env r now resp).exitCode = 1)
    ∧ (¬credsMissing env → ¬missingTypeFlag args →
        ∀ e, resp = .error e → (mainRun env r now resp).exitCode = 2)
    ∧ (¬credsMissing env → ¬missingTypeFlag args →
        ∀ j, resp = .ok j → (mainRun env r now resp).exitCode = 0) := by
  rcases parseArgs_ok hp with ⟨_, _, _, _, hprice, hstop, _⟩
  have hpos1 : ∀ q, args.price = some q → 0 < q := by
    intro q hq2
    rcases parseOptFlag_ok hprice with ⟨_, hnone⟩ | ⟨q2, _, hsome, hq3⟩
    · rw [hnone] at hq2; cases hq2
    · rw [hsome] at hq2
      injection hq2 with h4
      exact h4 ▸ hq3
  have hpos2 : ∀ q, args.stop_price = some q → 0 < q := by
    intro q hq2
    rcases parseOptFlag_ok hstop with ⟨_, hnone⟩ | ⟨q2, _, hsome, hq3⟩
    · rw [hnone] at hq2; cases hq2
    · rw [hsome] at hq2
      injection hq2 with h4
      exact h4 ▸ hq3
  refine ⟨fun hc => mainRun_credsMissing hp hc, fun hc hmf => ?_, fun hc hmf e he => ?_,
    fun hc hmf j hj => ?_⟩
  · rcases mainRun_credsOk now resp hp hc with ⟨key, sec, hm⟩
    rw [hm]
    exact afterCreds_exit1 _ _ _ _ hmf
  · rcases mainRun_credsOk now resp hp hc with ⟨key, sec, hm⟩
    rcases afterCreds_places (mkBot key sec) args now resp hpos1 hpos2 hmf with ⟨req, hfin⟩
    rw [hm, hfin, he]
    rfl
  · rcases mainRun_credsOk now resp hp hc with ⟨key, sec, hm⟩
    rcases afterCreds_places (mkBot key sec) args now resp hpos1 hpos2 hmf with ⟨req, hfin⟩
    rw [hm, hfin, hj]
    rfl

/-- Witness for C6: the four exit-code scenarios at concrete inputs. -/
theorem C6_witness :
    mainRun ⟨none, some "s"⟩ ⟨"BTCUSDT", "BUY", "MARKET", some 1, none, none, none⟩
        0 (.ok []) = ⟨1, [], []⟩
    ∧ (mainRun ⟨some "k", some "s"⟩ ⟨"BTCUSDT", "BUY", "LIMIT", some 1, none, none, none⟩
        0 (.ok [])).exitCode = 1
    ∧ (mainRun ⟨some "k", some "s"⟩ ⟨"BTCUSDT", "BUY", "MARKET", some 1, none, none, none⟩
        0 (.error (.transportFailed "timeout"))).exitCode = 2
    ∧ (mainRun ⟨some "k", some "s"⟩ ⟨"BTCUSDT", "BUY", "MARKET", some 1, none, none, none⟩
        0 (.ok [])).exitCode = 0 :=
  ⟨(C6_exit_codes ⟨none, some "s"⟩ ⟨"BTCUSDT", "BUY", "MARKET", some 1, none, none, none⟩
      0 (.ok []) ⟨"BTCUSDT", "BUY", .MARKET, 1, none, none, "GTC"⟩ (by rfl)).1
      (Or.inl rfl),
   (C6_exit_codes ⟨some "k", some "s"⟩ ⟨"BTCUSDT", "BUY", "LIMIT", some 1, none, none, none⟩
      0 (.ok []) ⟨"BTCUSDT", "BUY", .LIMIT, 1, none, none, "GTC"⟩ (by rfl)).2.1
      (by unfold credsMissing; decide) (Or.inl ⟨rfl, trivial⟩),
   (C6_exit_codes ⟨some "k", some "s"⟩ ⟨"BTCUSDT", "BUY", "MARKET", some 1, none, none, none⟩
      0 (.error (.transportFailed "timeout")) ⟨"BTCUSDT", "BUY", .MARKET, 1, none, none, "GTC"⟩
      (by rfl)).2.2.1 (by unfold credsMissing; decide) (by simp [missingTypeFlag]) _ rfl,
   (C6_exit_codes ⟨some "k", some "s"⟩ ⟨"BTCUSDT", "BUY", "MARKET", some 1, none, none, none⟩
      0 (.ok []) ⟨"BTCUSDT", "BUY", .MARKET, 1, none, none, "GTC"⟩ (by rfl)).2.2.2
      (by unfold credsMissing; decide) (by simp [missingTypeFlag]) _ rfl⟩

/-- The `--time-in-force` values `argparse` accepts (or the flag absent). -/
def tifChoiceOk (t : Option String) : Prop :=
  t = none ∨ t = some "GTC" ∨ t = some "IOC" ∨ t = some "FOK"

theorem parseTif_choiceOk {t : Option String} (h : tifChoiceOk t) :
    ∃ s, parseTif t = some s := by
  rcases h with h | h | h | h <;> subst h
  · exact ⟨"GTC", rfl⟩
  · exact ⟨"GTC", rfl⟩
  · exact ⟨"IOC", rfl⟩
  · exact ⟨"FOK", rfl⟩

theorem market_reduceOnly (bot : BasicBot) (now : Int) (symbol side : String) (q : Rat) :
    lookupP (place_market_order bot now symbol side q).2.params "reduceOnly"
      = some (.s "false") := rfl

/-- C10: the CLI exposes no flag for `reduce_only`, so every MARKET order
placed through it carries `reduceOnly` as the string `false`; and the
accepted `--time-in-force` values have no effect whatsoever on a MARKET
invocation's outcome. -/
theorem C10_cli_market_fixed_flags (env : Env) (r : RawArgs) (now : Int)
    (resp : Except PostError JResp) (t1 t2 : Option String)
    (hm : r.otype = "MARKET") (h1 : tifChoiceOk t1) (h2 : tifChoiceOk t2) :
    mainRun env { r with tif := t1 } now resp = mainRun env { r with tif := t2 } now resp
    ∧ ∀ req ∈ (mainRun env r now resp).calls,
        lookupP req.params "reduceOnly" = some (.s "false") := by
  rcases parseTif_choiceOk h1 with ⟨s1, ht1⟩
  rcases parseTif_choiceOk h2 with ⟨s2, ht2⟩
  constructor
  · cases hS : parseSide r.side with
    | none => simp [mainRun, parseArgs, hS]
    | some side =>
    cases hO : parseOType r.otype with
    | none => simp [mainRun, parseArgs, hS, hO]
    | some ot =>
    cases hQ : positive_float r.quantity with
    | error m => simp [mainRun, parseArgs, hS, hO, hQ]
    | ok q =>
    cases hP : parseOptFlag r.price with
    | error m => simp [mainRun, parseArgs, hS, hO, hQ, hP]
    | ok p =>
    cases hSp : parseOptFlag r.stop_price with
    | error m => simp [mainRun, parseArgs, hS, hO, hQ, hP, hSp]
    | ok sp =>
    have hot : ot = OType.MARKET := by
      rw [hm] at hO
      simpa [parseOType] using hO.symm
    subst hot
    have e1 : parseArgs { r with tif := t1 }
        = .ok ⟨r.symbol, side, .MARKET, q, p, sp, s1⟩ := by
      unfold parseArgs
      simp [hS, hO, hQ, hP, hSp, ht1]
    have e2 : parseArgs { r with tif := t2 }
        = .ok ⟨r.symbol, side, .MARKET, q, p, sp, s2⟩ := by
      unfold parseArgs
      simp [hS, hO, hQ, hP, hSp, ht2]
    simp only [mainRun, e1, e2]
    rcases env with ⟨ek, es⟩
    cases ek with
    | none => rfl
    | some key =>
        cases es with
        | none => rfl
        | some sec =>
            dsimp only
            by_cases hks : key = "" ∨ sec = ""
            · rw [if_pos hks, if_pos hks]
            · rw [if_neg hks, if_neg hks]
              rfl
  · intro req hreq
    cases hpr : parseArgs r with
    | error c => simp [mainRun, hpr] at hreq
    | ok args =>
        rcases parseArgs_ok hpr with ⟨_, _, hot, _, _, _, _⟩
        have hot2 : args.otype = .MARKET := by
          rw [hm] at hot
          simpa [parseOType] using hot.symm
        rcases env with ⟨ek, es⟩
        cases ek with
        | none => simp [mainRun, hpr] at hreq
        | some key =>
        cases es with
        | none => simp [mainRun, hpr] at hreq
        | some sec =>
            by_cases hks : key = "" ∨ sec = ""
            · simp only [mainRun, hpr, if_pos hks] at hreq
              simp at hreq
            · simp only [mainRun, hpr, if_neg hks] at hreq
              rw [show afterCreds (mkBot key sec) args now resp
                  = finish (place_market_order (mkBot key sec) now args.symbol
                      args.side args.quantity).2 resp
                from by simp [afterCreds, hot2]] at hreq
              cases resp with
              | error e =>
                  simp only [finish, List.mem_singleton] at hreq
                  subst hreq
                  exact market_reduceOnly _ _ _ _ _
              | ok j =>
                  simp only [finish, List.mem_singleton] at hreq
                  subst hreq
                  exact market_reduceOnly _ _ _ _ _

/-- Witness for C10 at a concrete MARKET invocation. -/
theorem C10_witness :
    mainRun ⟨some "k", some "s"⟩
        ⟨"BTCUSDT", "BUY", "MARKET", some 1, none, none, none⟩ 0 (.ok [])
      = mainRun ⟨some "k", some "s"⟩
        ⟨"BTCUSDT", "BUY", "MARKET", some 1, none, none, some "IOC"⟩ 0 (.ok [])
    ∧ ∀ req ∈ (mainRun ⟨some "k", some "s"⟩
          ⟨"BTCUSDT", "BUY", "MARKET", some 1, none, none, none⟩ 0 (.ok [])).calls,
        lookupP req.params "reduceOnly" = some (.s "false") :=
  C10_cli_market_fixed_flags ⟨some "k", some "s"⟩
    ⟨"BTCUSDT", "BUY", "MARKET", some 1, none, none, none⟩ 0 (.ok [])
    none (some "IOC") rfl (Or.inl rfl) (Or.inr (Or.inr (Or.inl rfl)))

end TradingBot
